import Mathlib

/-!
# Verification of `src/api_stresstest.py` (class `APIStressTest`)

Shallow embedding of the stress-test core: the dispatcher (`make_request`,
`run`) and the aggregator/summary (`show_results`).  Python floats
(per-request elapsed times and the derived statistics) are modelled as
exact rationals; `time.perf_counter` and the HTTP layer are abstracted by
an environment function `net : Nat → ReqResult` giving, for each request
id, the outcome the network produces for that attempt.
-/

/-- Outcome of one HTTP attempt as observed inside `make_request`'s
`try` block: either the call returned a response with status code
`status` after `elapsed` seconds, or it raised an exception (timeout,
connection error, protocol error, ...) after `elapsed` seconds. -/
inductive ReqResult where
  | completed (status : Nat) (elapsed : ℚ)
  | failed (err : String) (elapsed : ℚ)
deriving DecidableEq

/-- Whether the attempt reached the `end_time` line of the `try` block
(i.e. did not raise). -/
def ReqResult.isCompleted : ReqResult → Bool
  | .completed _ _ => true
  | .failed _ _ => false

/-- State of an `APIStressTest` object: the configuration set in
`__init__` (lines 10-18) plus the mutable aggregate fields `results`,
`failed_requests`, `successful_requests` (lines 19-21). -/
structure APIStressTest where
  url : String
  method : String
  data : Option String
  headers : List (String × String)
  num_requests : Nat
  concurrency : Nat
  timeout : Nat
  results : List ℚ
  failed_requests : Nat
  successful_requests : Nat
deriving DecidableEq

/-- Python's `str.upper()` as used on line 13, character by character. -/
def pyUpper (s : String) : String := ⟨s.data.map Char.toUpper⟩

/-- `__init__` (lines 10-21): stores the configuration (upper-casing the
method) and starts with an empty aggregate. -/
def APIStressTest.init (url method : String) (data : Option String)
    (headers : List (String × String))
    (num_requests concurrency timeout : Nat) : APIStressTest :=
  { url := url
    method := pyUpper method
    data := data
    headers := headers
    num_requests := num_requests
    concurrency := concurrency
    timeout := timeout
    results := []
    failed_requests := 0
    successful_requests := 0 }

/-- The `if/elif` method dispatch of `make_request` (lines 26-41): the
four supported methods.  All four branches perform the same bookkeeping
(the differing `session.get/post/put/delete` calls are abstracted into
`net`), so the dispatch reduces to this membership test. -/
def method_ok (m : String) : Bool :=
  m = "GET" || m = "POST" || m = "PUT" || m = "DELETE"

/-- `make_request` (lines 23-61): one request execution.
* Unsupported method (line 42-44): prints a note and returns — no state
  change at all.
* Completed response (lines 46-55): `elapsed` is appended to `results`,
  then exactly one of the two counters is incremented by the 2xx test.
* Exception (lines 57-61): only `failed_requests` is incremented; the
  elapsed time is printed but NOT appended to `results`. -/
def make_request (st : APIStressTest) (net : Nat → ReqResult)
    (request_id : Nat) : APIStressTest :=
  if method_ok st.method then
    match net request_id with
    | .completed status elapsed =>
      let st1 := { st with results := st.results ++ [elapsed] }
      if 200 ≤ status ∧ status < 300 then
        { st1 with successful_requests := st1.successful_requests + 1 }
      else
        { st1 with failed_requests := st1.failed_requests + 1 }
    | .failed _ _ =>
      { st with failed_requests := st.failed_requests + 1 }
  else
    st

/-- The batch slicing of `run` (lines 79-80): `tasks[i:i+C]` for
`i in range(0, len(tasks), C)`, i.e. the list cut into consecutive
chunks of size `C` (the final chunk may be shorter).  `C = 0` is
unreachable in the source (Python's `range` with step 0 raises). -/
def chunksOf (C : Nat) (l : List α) : List (List α) :=
  match l with
  | [] => []
  | x :: xs =>
    if _h : C = 0 then []
    else (x :: xs).take C :: chunksOf C ((x :: xs).drop C)
termination_by l.length
decreasing_by
  simp only [List.length_drop, List.length_cons]
  omega

/-- One batch step of `run` (line 81): `await asyncio.gather(*batch)`
runs every `make_request` coroutine of the batch and returns only once
each has completed and recorded its outcome.  Completion order within a
batch is unspecified in the source; the fold fixes one interleaving. -/
def run_batch (net : Nat → ReqResult) (st : APIStressTest)
    (batch : List Nat) : APIStressTest :=
  batch.foldl (fun s i => make_request s net i) st

/-- `run` (lines 63-83): builds one task per request id `1..N` (line
75-76), slices the task list into batches of size `concurrency`, and
awaits each batch in sequence — the `gather` on line 81 is a barrier, so
batch `k+1` starts only after every execution of batch `k` has recorded
its outcome.  (The final `self.show_results()` call is modelled
separately by `show_results`.) -/
def APIStressTest.run (st : APIStressTest) (net : Nat → ReqResult) :
    APIStressTest :=
  (chunksOf st.concurrency (List.range' 1 st.num_requests)).foldl
    (run_batch net) st

/-- Python's builtin `min` over a non-empty list (line 101). -/
def pyMin : List ℚ → ℚ
  | [] => 0
  | x :: xs => xs.foldl min x

/-- Python's builtin `max` over a non-empty list (line 102). -/
def pyMax : List ℚ → ℚ
  | [] => 0
  | x :: xs => xs.foldl max x

/-- `statistics.mean` (line 100). -/
def pyMean (l : List ℚ) : ℚ := l.sum / l.length

/-- Python's `sorted(...)` (lines 106-107): a stable sort returning a
new list, leaving its argument untouched. -/
def pySorted (l : List ℚ) : List ℚ := List.insertionSort (· ≤ ·) l

/-- `statistics.median` (line 103): middle element of the sorted list
for odd length, average of the two middle elements for even length. -/
def pyMedian (l : List ℚ) : ℚ :=
  let s := pySorted l
  let n := l.length
  if n % 2 = 1 then s.getD (n / 2) 0
  else (s.getD (n / 2 - 1) 0 + s.getD (n / 2) 0) / 2

/-- `int(len(results) * 0.95)` (line 106): truncation of the product,
i.e. the floor `L * 95 / 100` in exact arithmetic. -/
def p95Index (L : Nat) : Nat := L * 95 / 100

/-- `int(len(results) * 0.99)` (line 107). -/
def p99Index (L : Nat) : Nat := L * 99 / 100

/-- Lines 105-110: both percentiles are read from a fresh sorted copy;
if either indexing raises `IndexError`, the `except` leaves both bound
to `"N/A"` (modelled as `none`). -/
def percentiles (results : List ℚ) : Option ℚ × Option ℚ :=
  let s := pySorted results
  if p95Index results.length < s.length ∧ p99Index results.length < s.length then
    (some (s.getD (p95Index results.length) 0),
     some (s.getD (p99Index results.length) 0))
  else (none, none)

/-- The figures printed by the report branch of `show_results`
(lines 90-122). -/
structure TestSummary where
  total_requests : Nat
  successful : Nat
  failed : Nat
  success_rate : ℚ
  avg_time : ℚ
  min_time : ℚ
  max_time : ℚ
  median_time : ℚ
  p95 : Option ℚ
  p99 : Option ℚ
  requests_per_second : ℚ
deriving DecidableEq

/-- Observable result of `show_results`: the early return printing
"No successful requests to analyze." when `results` is empty (lines
86-88); an uncaught `ZeroDivisionError`, either from the success-rate
division by `num_requests` (line 96) or from the unguarded
requests-per-second division by `sum(results)` (line 113, marked
`# FIXME` in the source); or the printed report. -/
inductive ShowResult where
  | noData
  | zeroDivisionError
  | report (s : TestSummary)
deriving DecidableEq

/-- `show_results` (lines 85-122).  The object state is threaded through
to the result to record that the method never mutates it: every
statement only reads `self`, no statement assigns to a field, and
`sorted(self.results)` (inside `percentiles` / `pyMedian`) builds a new
list rather than sorting `self.results` in place. -/
def show_results (st : APIStressTest) : APIStressTest × ShowResult :=
  if st.results = [] then (st, .noData)
  else if st.num_requests = 0 then (st, .zeroDivisionError)
  else
    let total_time := st.results.sum
    if total_time = 0 then (st, .zeroDivisionError)
    else
      (st, .report
        { total_requests := st.num_requests
          successful := st.successful_requests
          failed := st.failed_requests
          success_rate := (st.successful_requests : ℚ) / (st.num_requests : ℚ) * 100
          avg_time := pyMean st.results
          min_time := pyMin st.results
          max_time := pyMax st.results
          median_time := pyMedian st.results
          p95 := (percentiles st.results).1
          p99 := (percentiles st.results).2
          requests_per_second := (st.successful_requests : ℚ) / total_time })

/-! ## Properties of the batch slicing -/

theorem chunksOf_nil (C : Nat) : chunksOf C ([] : List α) = [] := by
  simp [chunksOf]

theorem chunksOf_cons_eq (C : Nat) (hC : C ≠ 0) (l : List α) (hl : l ≠ []) :
    chunksOf C l = l.take C :: chunksOf C (l.drop C) := by
  match l with
  | [] => exact absurd rfl hl
  | x :: xs => simp [chunksOf, hC]

/-- Concatenating the slices `tasks[i:i+C]` in order gives back `tasks`:
the batches are a consecutive partition of the task list. -/
theorem chunksOf_flatten (C : Nat) (hC : C ≠ 0) (l : List α) :
    (chunksOf C l).flatten = l := by
  generalize hn : l.length = n
  induction n using Nat.strong_induction_on generalizing l with
  | _ n ih =>
    match l with
    | [] => simp [chunksOf]
    | x :: xs =>
      rw [chunksOf_cons_eq C hC _ (by simp), List.flatten_cons,
        ih ((x :: xs).drop C).length ?_ _ rfl, List.take_append_drop]
      subst hn
      simp only [List.length_drop, List.length_cons]
      omega

/-- Every batch is non-empty and has at most `C` elements. -/
theorem chunksOf_mem (C : Nat) (l : List α) :
    ∀ b ∈ chunksOf C l, b ≠ [] ∧ b.length ≤ C := by
  generalize hn : l.length = n
  induction n using Nat.strong_induction_on generalizing l with
  | _ n ih =>
    match l with
    | [] => simp [chunksOf]
    | x :: xs =>
      by_cases hC : C = 0
      · simp [chunksOf, hC]
      · rw [chunksOf_cons_eq C hC _ (by simp)]
        intro b hb
        rcases List.mem_cons.mp hb with rfl | hb
        · obtain ⟨k, rfl⟩ := Nat.exists_eq_succ_of_ne_zero hC
          refine ⟨by simp, by simp⟩
        · refine ih ((x :: xs).drop C).length ?_ _ rfl b hb
          subst hn
          simp only [List.length_drop, List.length_cons]
          omega

/-- Every batch except possibly the last has exactly `C` elements. -/
theorem chunksOf_dropLast (C : Nat) (hC : C ≠ 0) (l : List α) :
    ∀ b ∈ (chunksOf C l).dropLast, b.length = C := by
  generalize hn : l.length = n
  induction n using Nat.strong_induction_on generalizing l with
  | _ n ih =>
    match l with
    | [] => simp [chunksOf]
    | x :: xs =>
      rw [chunksOf_cons_eq C hC _ (by simp)]
      cases hrest : chunksOf C ((x :: xs).drop C) with
      | nil => simp
      | cons b bs =>
        rw [List.dropLast_cons₂]
        intro c hc
        rcases List.mem_cons.mp hc with rfl | hc
        · have hd : (x :: xs).drop C ≠ [] := by
            intro h0
            rw [h0, chunksOf_nil] at hrest
            exact List.noConfusion hrest
          have hlt : C < (x :: xs).length := by
            by_contra hge
            push_neg at hge
            exact hd (List.drop_eq_nil_of_le hge)
          simp only [List.length_take]
          omega
        · rw [← hrest] at hc
          refine ih ((x :: xs).drop C).length ?_ _ rfl c hc
          subst hn
          simp only [List.length_drop, List.length_cons]
          omega

/-! ## Accounting facts about `make_request` and `run` -/

/-- One supported-method request execution increments exactly one of the
two counters, appends a duration exactly when the attempt completed with
a status, and never touches the configuration. -/
theorem make_request_supported (st : APIStressTest) (net : Nat → ReqResult)
    (i : Nat) (hm : method_ok st.method = true) :
    (make_request st net i).successful_requests + (make_request st net i).failed_requests
      = st.successful_requests + st.failed_requests + 1
    ∧ (make_request st net i).results.length
      = st.results.length + (if (net i).isCompleted then 1 else 0)
    ∧ (make_request st net i).method = st.method := by
  unfold make_request
  cases hni : net i with
  | completed status elapsed =>
    by_cases hs : 200 ≤ status ∧ status < 300 <;>
      simp [hm, hni, hs, ReqResult.isCompleted] <;> omega
  | failed e t =>
    simp [hm, hni, ReqResult.isCompleted]
    omega

/-- Folding `make_request` over any id list adds the list's length to
`successes + failures` and one duration per completed attempt. -/
theorem run_batch_stats (net : Nat → ReqResult) (ids : List Nat)
    (st : APIStressTest) (hm : method_ok st.method = true) :
    (run_batch net st ids).successful_requests + (run_batch net st ids).failed_requests
      = st.successful_requests + st.failed_requests + ids.length
    ∧ (run_batch net st ids).results.length
      = st.results.length + ids.countP (fun i => (net i).isCompleted)
    ∧ (run_batch net st ids).method = st.method := by
  induction ids generalizing st with
  | nil => simp [run_batch]
  | cons i is ih =>
    have h1 := make_request_supported st net i hm
    have h2 := ih (make_request st net i) (by rw [h1.2.2]; exact hm)
    simp only [run_batch, List.foldl_cons] at h2 ⊢
    refine ⟨?_, ?_, by rw [h2.2.2, h1.2.2]⟩
    · rw [h2.1, h1.1, List.length_cons]
      omega
    · rw [h2.2.1, h1.2.1, List.countP_cons]
      by_cases hc : (net i).isCompleted <;> simp [hc] <;> omega

/-- With `C ≠ 0`, `run` processes exactly the ids `1..N`, batches being
only a regrouping of the same sequential fold. -/
theorem run_eq_run_batch (st : APIStressTest) (net : Nat → ReqResult)
    (hC : st.concurrency ≠ 0) :
    st.run net = run_batch net st (List.range' 1 st.num_requests) := by
  unfold APIStressTest.run
  conv_rhs => rw [show List.range' 1 st.num_requests
    = (chunksOf st.concurrency (List.range' 1 st.num_requests)).flatten from
      (chunksOf_flatten _ hC _).symm]
  simp only [run_batch, List.foldl_flatten]
  rfl

/-- An attempt that raises an exception only increments `failed_requests`. -/
theorem make_request_failed (st : APIStressTest) (net : Nat → ReqResult)
    (i : Nat) (hm : method_ok st.method = true)
    (hf : (net i).isCompleted = false) :
    make_request st net i = { st with failed_requests := st.failed_requests + 1 } := by
  unfold make_request
  cases hni : net i with
  | completed s e =>
    rw [hni] at hf
    exact absurd hf (by simp [ReqResult.isCompleted])
  | failed e t => simp [hm, hni]

/-- If every attempt raises, the whole fold only advances the failure
counter: no duration is ever recorded. -/
theorem run_batch_cons (net : Nat → ReqResult) (st : APIStressTest)
    (i : Nat) (is : List Nat) :
    run_batch net st (i :: is) = run_batch net (make_request st net i) is := rfl

theorem run_batch_all_failed (net : Nat → ReqResult) (ids : List Nat)
    (st : APIStressTest) (hm : method_ok st.method = true)
    (hf : ∀ i, (net i).isCompleted = false) :
    run_batch net st ids = { st with failed_requests := st.failed_requests + ids.length } := by
  induction ids generalizing st with
  | nil => simp [run_batch]
  | cons i is ih =>
    rw [run_batch_cons, make_request_failed st net i hm (hf i),
      ih { st with failed_requests := st.failed_requests + 1 } hm,
      List.length_cons, show st.failed_requests + (is.length + 1)
        = st.failed_requests + 1 + is.length from by omega]

/-! ## Order facts about the statistics helpers -/

theorem foldl_min_le_init (xs : List ℚ) (a : ℚ) : xs.foldl min a ≤ a := by
  induction xs generalizing a with
  | nil => simp
  | cons y ys ih => exact le_trans (ih (min a y)) (min_le_left a y)

theorem foldl_min_le_mem (xs : List ℚ) (a : ℚ) : ∀ x ∈ xs, xs.foldl min a ≤ x := by
  induction xs generalizing a with
  | nil => simp
  | cons y ys ih =>
    intro x hx
    rcases List.mem_cons.mp hx with rfl | hx
    · exact le_trans (foldl_min_le_init ys (min a x)) (min_le_right a x)
    · exact ih (min a y) x hx

theorem foldl_min_mem (xs : List ℚ) (a : ℚ) :
    xs.foldl min a = a ∨ xs.foldl min a ∈ xs := by
  induction xs generalizing a with
  | nil => simp
  | cons y ys ih =>
    rcases ih (min a y) with h | h
    · rcases min_cases a y with ⟨hm, _⟩ | ⟨hm, _⟩
      · left
        rw [List.foldl_cons, h, hm]
      · right
        rw [List.foldl_cons, h, hm]
        exact List.mem_cons_self y ys
    · right
      exact List.mem_cons_of_mem _ h

theorem init_le_foldl_max (xs : List ℚ) (a : ℚ) : a ≤ xs.foldl max a := by
  induction xs generalizing a with
  | nil => simp
  | cons y ys ih => exact le_trans (le_max_left a y) (ih (max a y))

theorem mem_le_foldl_max (xs : List ℚ) (a : ℚ) : ∀ x ∈ xs, x ≤ xs.foldl max a := by
  induction xs generalizing a with
  | nil => simp
  | cons y ys ih =>
    intro x hx
    rcases List.mem_cons.mp hx with rfl | hx
    · exact le_trans (le_max_right a x) (init_le_foldl_max ys (max a x))
    · exact ih (max a y) x hx

theorem foldl_max_mem (xs : List ℚ) (a : ℚ) :
    xs.foldl max a = a ∨ xs.foldl max a ∈ xs := by
  induction xs generalizing a with
  | nil => simp
  | cons y ys ih =>
    rcases ih (max a y) with h | h
    · rcases max_cases a y with ⟨hm, _⟩ | ⟨hm, _⟩
      · left
        rw [List.foldl_cons, h, hm]
      · right
        rw [List.foldl_cons, h, hm]
        exact List.mem_cons_self y ys
    · right
      exact List.mem_cons_of_mem _ h

theorem pyMin_mem (l : List ℚ) (hl : l ≠ []) : pyMin l ∈ l := by
  match l with
  | x :: xs =>
    rcases foldl_min_mem xs x with h | h
    · rw [pyMin, h]
      exact List.mem_cons_self x xs
    · exact List.mem_cons_of_mem _ h

theorem pyMin_le (l : List ℚ) : ∀ x ∈ l, pyMin l ≤ x := by
  match l with
  | [] => simp
  | x :: xs =>
    intro y hy
    rcases List.mem_cons.mp hy with rfl | hy
    · exact foldl_min_le_init xs y
    · exact foldl_min_le_mem xs x y hy

theorem pyMax_mem (l : List ℚ) (hl : l ≠ []) : pyMax l ∈ l := by
  match l with
  | x :: xs =>
    rcases foldl_max_mem xs x with h | h
    · rw [pyMax, h]
      exact List.mem_cons_self x xs
    · exact List.mem_cons_of_mem _ h

theorem le_pyMax (l : List ℚ) : ∀ x ∈ l, x ≤ pyMax l := by
  match l with
  | [] => simp
  | x :: xs =>
    intro y hy
    rcases List.mem_cons.mp hy with rfl | hy
    · exact init_le_foldl_max xs y
    · exact mem_le_foldl_max xs x y hy

theorem pySorted_sorted (l : List ℚ) : List.Sorted (· ≤ ·) (pySorted l) :=
  List.sorted_insertionSort _ l

theorem pySorted_perm (l : List ℚ) : List.Perm (pySorted l) l :=
  List.perm_insertionSort _ l

theorem pySorted_length (l : List ℚ) : (pySorted l).length = l.length :=
  List.length_insertionSort _ l

theorem pySorted_mem (l : List ℚ) {x : ℚ} : x ∈ pySorted l ↔ x ∈ l :=
  (pySorted_perm l).mem_iff

theorem getD_mem_of_lt (l : List ℚ) (i : Nat) (h : i < l.length) : l.getD i 0 ∈ l := by
  rw [List.getD_eq_getElem l 0 h]
  exact List.getElem_mem h

/-- The last element of the sorted duration list is the maximum. -/
theorem pySorted_getD_last (l : List ℚ) (hl : l ≠ []) :
    (pySorted l).getD (l.length - 1) 0 = pyMax l := by
  have hlen : (pySorted l).length = l.length := pySorted_length l
  have hpos : 0 < l.length := List.length_pos.mpr hl
  have hidx : l.length - 1 < (pySorted l).length := by omega
  apply le_antisymm
  · exact le_pyMax l _ ((pySorted_mem l).mp (getD_mem_of_lt _ _ hidx))
  · have hmem : pyMax l ∈ pySorted l := (pySorted_mem l).mpr (pyMax_mem l hl)
    obtain ⟨j, hj⟩ := List.get_of_mem hmem
    rw [← hj, List.getD_eq_getElem _ 0 hidx]
    have hle : j ≤ (⟨l.length - 1, hidx⟩ : Fin (pySorted l).length) := by
      have hj2 := j.isLt
      show j.val ≤ l.length - 1
      omega
    exact (pySorted_sorted l).rel_get_of_le hle

/-- The median lies between the minimum and the maximum. -/
theorem pyMedian_bounds (l : List ℚ) (hl : l ≠ []) :
    pyMin l ≤ pyMedian l ∧ pyMedian l ≤ pyMax l := by
  have hpos : 0 < l.length := List.length_pos.mpr hl
  have hlen := pySorted_length l
  unfold pyMedian
  by_cases hpar : l.length % 2 = 1
  · have hidx : l.length / 2 < (pySorted l).length := by omega
    have hmem := (pySorted_mem l).mp (getD_mem_of_lt _ _ hidx)
    simp only [hpar, if_pos]
    exact ⟨pyMin_le l _ hmem, le_pyMax l _ hmem⟩
  · have h2 : 2 ≤ l.length := by omega
    have hidxb : l.length / 2 < (pySorted l).length := by omega
    have hidxa : l.length / 2 - 1 < (pySorted l).length := by omega
    have hmema := (pySorted_mem l).mp (getD_mem_of_lt _ _ hidxa)
    have hmemb := (pySorted_mem l).mp (getD_mem_of_lt _ _ hidxb)
    simp only [hpar, if_neg, if_false]
    constructor
    · have ha := pyMin_le l _ hmema
      have hb := pyMin_le l _ hmemb
      linarith
    · have ha := le_pyMax l _ hmema
      have hb := le_pyMax l _ hmemb
      linarith

/-- The maximum of a non-negative list is at most its sum. -/
theorem pyMax_le_sum (l : List ℚ) (hl : l ≠ []) (hpos : ∀ x ∈ l, 0 ≤ x) :
    pyMax l ≤ l.sum :=
  List.single_le_sum hpos _ (pyMax_mem l hl)

/-! ## The report branch of `show_results` -/

/-- When `results` is non-empty, `num_requests` is non-zero and the
durations do not sum to zero, `show_results` reaches the report branch;
this spells out every printed figure. -/
theorem show_results_report (st : APIStressTest) (hne : st.results ≠ [])
    (hN : st.num_requests ≠ 0) (hsum : st.results.sum ≠ 0) :
    (show_results st).2 = ShowResult.report
      { total_requests := st.num_requests
        successful := st.successful_requests
        failed := st.failed_requests
        success_rate := (st.successful_requests : ℚ) / (st.num_requests : ℚ) * 100
        avg_time := pyMean st.results
        min_time := pyMin st.results
        max_time := pyMax st.results
        median_time := pyMedian st.results
        p95 := (percentiles st.results).1
        p99 := (percentiles st.results).2
        requests_per_second := (st.successful_requests : ℚ) / st.results.sum } := by
  simp [show_results, hne, hN, hsum]

theorem p95Index_lt (L : Nat) (hL : L ≠ 0) : p95Index L < L := by
  unfold p95Index
  omega

theorem p99Index_lt (L : Nat) (hL : L ≠ 0) : p99Index L < L := by
  unfold p99Index
  omega

/-- For a non-empty list both percentile indexings are in range, so the
`try` block succeeds and returns the two nearest-rank elements. -/
theorem percentiles_eq (l : List ℚ) (hne : l ≠ []) :
    percentiles l = (some ((pySorted l).getD (p95Index l.length) 0),
                     some ((pySorted l).getD (p99Index l.length) 0)) := by
  have hL : l.length ≠ 0 := fun h => hne (List.eq_nil_of_length_eq_zero h)
  simp only [percentiles, pySorted_length]
  rw [if_pos ⟨p95Index_lt _ hL, p99Index_lt _ hL⟩]

/-! ## Claims -/

/-- C4: if the duration list is empty when the summary is requested,
`show_results` reports "no data" (the early return printing
"No successful requests to analyze."), computes no further statistics,
and raises no division-by-zero fault. -/
theorem c4_empty_reports_no_data (st : APIStressTest)
    (h : st.results = []) :
    (show_results st).2 = ShowResult.noData := by
  simp [show_results, h]

theorem c4_empty_reports_no_data_witness :
    ({ url := "u", method := "GET", data := none, headers := [],
       num_requests := 3, concurrency := 1, timeout := 30, results := [],
       failed_requests := 0, successful_requests := 0 } : APIStressTest).results = []
    ∧ (show_results
        { url := "u", method := "GET", data := none, headers := [],
          num_requests := 3, concurrency := 1, timeout := 30, results := [],
          failed_requests := 0, successful_requests := 0 }).2 = ShowResult.noData :=
  ⟨rfl, c4_empty_reports_no_data _ rfl⟩

/-- C5: whenever a report is produced, the printed success rate equals
`successful_requests / num_requests * 100` — the denominator is the
configured total request count field, not the number of recorded
durations. -/
theorem c5_success_rate_uses_configured_total (st : APIStressTest)
    (hne : st.results ≠ []) (hN : st.num_requests ≠ 0)
    (hsum : st.results.sum ≠ 0) :
    ∃ s : TestSummary, (show_results st).2 = ShowResult.report s
      ∧ s.success_rate
          = (st.successful_requests : ℚ) / (st.num_requests : ℚ) * 100 :=
  ⟨_, show_results_report st hne hN hsum, rfl⟩

theorem c5_success_rate_uses_configured_total_witness :
    ({ url := "u", method := "GET", data := none, headers := [],
       num_requests := 10, concurrency := 1, timeout := 30, results := [1],
       failed_requests := 0, successful_requests := 7 } : APIStressTest).results ≠ []
    ∧ ∃ s : TestSummary,
      (show_results
        { url := "u", method := "GET", data := none, headers := [],
          num_requests := 10, concurrency := 1, timeout := 30, results := [1],
          failed_requests := 0, successful_requests := 7 }).2 = ShowResult.report s
      ∧ s.success_rate = ((7 : Nat) : ℚ) / ((10 : Nat) : ℚ) * 100 :=
  ⟨by decide, c5_success_rate_uses_configured_total _ (by decide) (by decide) (by simp)⟩

/-- C7: for every duration list of length `L ≥ 1` the percentile indices
`int(L * 0.95)` and `int(L * 0.99)` are strictly below `L`, so the
indexing on lines 106-107 is always in range and the `IndexError` /
`"N/A"` branch is unreachable for non-empty lists. -/
theorem c7_percentile_indices_in_range (l : List ℚ) (hne : l ≠ []) :
    p95Index l.length < l.length ∧ p99Index l.length < l.length
    ∧ (percentiles l).1.isSome = true ∧ (percentiles l).2.isSome = true := by
  have hL : l.length ≠ 0 := fun h => hne (List.eq_nil_of_length_eq_zero h)
  refine ⟨p95Index_lt _ hL, p99Index_lt _ hL, ?_, ?_⟩ <;>
    rw [percentiles_eq l hne] <;> rfl

theorem c7_percentile_indices_in_range_witness :
    ([(1 : ℚ)] ≠ [])
    ∧ (p95Index [(1 : ℚ)].length < [(1 : ℚ)].length
      ∧ p99Index [(1 : ℚ)].length < [(1 : ℚ)].length
      ∧ (percentiles [(1 : ℚ)]).1.isSome = true
      ∧ (percentiles [(1 : ℚ)]).2.isSome = true) :=
  ⟨by decide, c7_percentile_indices_in_range [(1 : ℚ)] (by decide)⟩

/-- C8: for every non-empty duration list of non-negative durations, the
statistics computed on lines 99-103 satisfy
`min ≤ median ≤ max ≤ sum`. -/
theorem c8_min_median_max_sum (l : List ℚ) (hne : l ≠ [])
    (hpos : ∀ x ∈ l, 0 ≤ x) :
    pyMin l ≤ pyMedian l ∧ pyMedian l ≤ pyMax l ∧ pyMax l ≤ l.sum :=
  ⟨(pyMedian_bounds l hne).1, (pyMedian_bounds l hne).2,
    pyMax_le_sum l hne hpos⟩

theorem c8_min_median_max_sum_witness :
    ([(2 : ℚ), 1] ≠ [] ∧ ∀ x ∈ [(2 : ℚ), 1], 0 ≤ x)
    ∧ (pyMin [(2 : ℚ), 1] ≤ pyMedian [(2 : ℚ), 1]
      ∧ pyMedian [(2 : ℚ), 1] ≤ pyMax [(2 : ℚ), 1]
      ∧ pyMax [(2 : ℚ), 1] ≤ [(2 : ℚ), 1].sum) :=
  ⟨⟨by decide, by decide⟩,
    c8_min_median_max_sum [(2 : ℚ), 1] (by decide) (by decide)⟩

/-- C10: computing the summary never mutates the aggregate — the state
returned by `show_results` is the input state unchanged (duration list,
order included, and both counters), and requesting the summary again on
that state yields the same result. -/
theorem c10_show_results_never_mutates (st : APIStressTest) :
    (show_results st).1 = st
    ∧ (show_results ((show_results st).1)).2 = (show_results st).2 := by
  have h1 : (show_results st).1 = st := by
    by_cases he : st.results = []
    · simp [show_results, he]
    · by_cases hn : st.num_requests = 0
      · simp [show_results, he, hn]
      · by_cases hs : st.results.sum = 0
        · simp [show_results, he, hn, hs]
        · simp [show_results, he, hn, hs]
  exact ⟨h1, by rw [h1]⟩

/-- C2: the claim that a non-empty, zero-sum duration list yields a
requests-per-second reported as unavailable is FALSE of the code: line
113 (marked `# FIXME` in the source) divides by `sum(results)`
unguarded, so with `results = [0]` (one request completed with a
near-instant elapsed time of 0, here with a non-2xx status) the run
dies with an uncaught `ZeroDivisionError` instead of reporting the
throughput as unavailable. -/
theorem c2_zero_sum_raises_zero_division :
    (show_results
      ({ url := "u", method := "GET", data := none, headers := [],
         num_requests := 1, concurrency := 1, timeout := 30,
         results := [0], failed_requests := 1, successful_requests := 0 }
        : APIStressTest)).2
      = ShowResult.zeroDivisionError := by
  simp [show_results]

/-- C6: for every non-empty duration list the percentiles are
nearest-rank selections from the ascending sort at indices
`int(0.95 * L)` and `int(0.99 * L)`; those indices coincide with their
clamp to the last valid index, the out-of-range branch (which would
report "N/A" instead of raising) is never taken, and for `L = 5` both
indices resolve to the last element, so p95 = p99 = max. -/
theorem c6_percentiles_nearest_rank (l : List ℚ) (hne : l ≠ []) :
    percentiles l = (some ((pySorted l).getD (p95Index l.length) 0),
                     some ((pySorted l).getD (p99Index l.length) 0))
    ∧ p95Index l.length = min (p95Index l.length) (l.length - 1)
    ∧ p99Index l.length = min (p99Index l.length) (l.length - 1)
    ∧ (l.length = 5 →
        percentiles l = (some (pyMax l), some (pyMax l))) := by
  have hL : l.length ≠ 0 := fun h => hne (List.eq_nil_of_length_eq_zero h)
  have h95 := p95Index_lt l.length hL
  have h99 := p99Index_lt l.length hL
  refine ⟨percentiles_eq l hne, by omega, by omega, ?_⟩
  intro h5
  have e95 : p95Index l.length = l.length - 1 := by
    rw [h5]
    decide
  have e99 : p99Index l.length = l.length - 1 := by
    rw [h5]
    decide
  rw [percentiles_eq l hne, e95, e99, pySorted_getD_last l hne]

theorem c6_percentiles_nearest_rank_witness :
    ([(3 : ℚ), 1, 4, 1, 5] ≠ [])
    ∧ (percentiles [(3 : ℚ), 1, 4, 1, 5]
        = (some ((pySorted [(3 : ℚ), 1, 4, 1, 5]).getD
            (p95Index [(3 : ℚ), 1, 4, 1, 5].length) 0),
           some ((pySorted [(3 : ℚ), 1, 4, 1, 5]).getD
            (p99Index [(3 : ℚ), 1, 4, 1, 5].length) 0))
      ∧ p95Index [(3 : ℚ), 1, 4, 1, 5].length
          = min (p95Index [(3 : ℚ), 1, 4, 1, 5].length)
              ([(3 : ℚ), 1, 4, 1, 5].length - 1)
      ∧ p99Index [(3 : ℚ), 1, 4, 1, 5].length
          = min (p99Index [(3 : ℚ), 1, 4, 1, 5].length)
              ([(3 : ℚ), 1, 4, 1, 5].length - 1)
      ∧ ([(3 : ℚ), 1, 4, 1, 5].length = 5 →
          percentiles [(3 : ℚ), 1, 4, 1, 5]
            = (some (pyMax [(3 : ℚ), 1, 4, 1, 5]),
               some (pyMax [(3 : ℚ), 1, 4, 1, 5])))) :=
  ⟨by decide, c6_percentiles_nearest_rank [(3 : ℚ), 1, 4, 1, 5] (by decide)⟩

/-- C1: the claimed invariant "successes + failures = number of
recorded durations (= N)" is FALSE of the code: a request that fails
with an exception is counted in `failed_requests` but its elapsed time
is never appended to `results` (lines 57-61 print it and drop it).
With N = C = 1 and the single request raising, successes + failures = 1
while zero durations are recorded. -/
theorem c1_exception_breaks_duration_invariant :
    ¬ (((APIStressTest.init "u" "GET" none [] 1 1 30).run
          (fun _ => ReqResult.failed "timeout" 1)).successful_requests
        + ((APIStressTest.init "u" "GET" none [] 1 1 30).run
            (fun _ => ReqResult.failed "timeout" 1)).failed_requests
      = ((APIStressTest.init "u" "GET" none [] 1 1 30).run
          (fun _ => ReqResult.failed "timeout" 1)).results.length) := by
  rw [run_eq_run_batch _ _ (by decide),
    run_batch_all_failed (fun _ => ReqResult.failed "timeout" 1) _ _
      (by decide) (fun _ => rfl)]
  simp [APIStressTest.init]

/-- C1 (amended): for all N, C ≥ 1 and a supported method,
successes + failures = N, and the number of recorded durations equals
the number of requests whose attempt completed with an HTTP status —
an exception-failed request contributes its classification but no
duration, so the duration count falls short of N by the number of
exception failures. -/
theorem c1_amended_counts_and_durations (url m : String)
    (d : Option String) (hs : List (String × String)) (N C T : Nat)
    (hN : 1 ≤ N) (hC : 1 ≤ C) (net : Nat → ReqResult)
    (hm : method_ok (APIStressTest.init url m d hs N C T).method = true) :
    ((APIStressTest.init url m d hs N C T).run net).successful_requests
      + ((APIStressTest.init url m d hs N C T).run net).failed_requests = N
    ∧ ((APIStressTest.init url m d hs N C T).run net).results.length
      = (List.range' 1 N).countP (fun i => (net i).isCompleted) := by
  have hC0 : (APIStressTest.init url m d hs N C T).concurrency ≠ 0 := by
    show C ≠ 0
    omega
  rw [run_eq_run_batch _ net hC0]
  have h := run_batch_stats net
    (List.range' 1 (APIStressTest.init url m d hs N C T).num_requests)
    (APIStressTest.init url m d hs N C T) hm
  refine ⟨?_, ?_⟩
  · rw [h.1]
    show 0 + 0 + (List.range' 1 N).length = N
    simp
  · rw [h.2.1]
    show ([] : List ℚ).length
        + (List.range' 1 N).countP (fun i => (net i).isCompleted)
      = (List.range' 1 N).countP (fun i => (net i).isCompleted)
    simp

theorem c1_amended_counts_and_durations_witness :
    (1 ≤ 2 ∧ 1 ≤ 1)
    ∧ (((APIStressTest.init "u" "GET" none [] 2 1 30).run
          (fun i => if i = 1 then ReqResult.completed 200 1
            else ReqResult.failed "boom" 1)).successful_requests
        + ((APIStressTest.init "u" "GET" none [] 2 1 30).run
            (fun i => if i = 1 then ReqResult.completed 200 1
              else ReqResult.failed "boom" 1)).failed_requests = 2
      ∧ ((APIStressTest.init "u" "GET" none [] 2 1 30).run
          (fun i => if i = 1 then ReqResult.completed 200 1
            else ReqResult.failed "boom" 1)).results.length
        = (List.range' 1 2).countP
            (fun i => ((fun j => if j = 1 then ReqResult.completed 200 1
              else ReqResult.failed "boom" 1) i).isCompleted)) :=
  ⟨⟨by decide, by decide⟩,
    c1_amended_counts_and_durations "u" "GET" none [] 2 1 30
      (by decide) (by decide) _ (by decide)⟩

/-- C3: the claim is FALSE of the code: with N = 4, C = 2 and every
request timing out, the elapsed times of the failed requests are NOT
recorded — `results` gets 0 entries, not 4 — so the summary takes the
"no data" early return and a requests-per-second of 0/sum is never
computed. -/
theorem c3_all_fail_records_no_durations :
    ((APIStressTest.init "u" "GET" none [] 4 2 1).run
        (fun _ => ReqResult.failed "TimeoutError" 1)).results.length ≠ 4 := by
  rw [run_eq_run_batch _ _ (by decide),
    run_batch_all_failed (fun _ => ReqResult.failed "TimeoutError" 1) _ _
      (by decide) (fun _ => rfl)]
  simp [APIStressTest.init]

/-- C3 (amended): when every request fails with an exception (e.g. all
time out), all N outcomes are classified Failure and successes stay 0,
but no elapsed time is recorded — `results` stays empty — and the
summary reports "no data" instead of computing requests-per-second
= 0 / sum. -/
theorem c3_amended_all_fail_reports_no_data (url m : String)
    (d : Option String) (hs : List (String × String)) (N C T : Nat)
    (hN : 1 ≤ N) (hC : 1 ≤ C) (net : Nat → ReqResult)
    (hm : method_ok (APIStressTest.init url m d hs N C T).method = true)
    (hf : ∀ i, (net i).isCompleted = false) :
    ((APIStressTest.init url m d hs N C T).run net).failed_requests = N
    ∧ ((APIStressTest.init url m d hs N C T).run net).successful_requests = 0
    ∧ ((APIStressTest.init url m d hs N C T).run net).results = []
    ∧ (show_results ((APIStressTest.init url m d hs N C T).run net)).2
        = ShowResult.noData := by
  have hC0 : (APIStressTest.init url m d hs N C T).concurrency ≠ 0 := by
    show C ≠ 0
    omega
  rw [run_eq_run_batch _ net hC0, run_batch_all_failed _ _ _ hm hf]
  refine ⟨?_, rfl, rfl, ?_⟩
  · show 0 + (List.range' 1 N).length = N
    simp
  · simp [show_results, APIStressTest.init]

theorem c3_amended_all_fail_reports_no_data_witness :
    (1 ≤ 4 ∧ 1 ≤ 2)
    ∧ (((APIStressTest.init "u" "GET" none [] 4 2 1).run
          (fun _ => ReqResult.failed "TimeoutError" 1)).failed_requests = 4
      ∧ ((APIStressTest.init "u" "GET" none [] 4 2 1).run
          (fun _ => ReqResult.failed "TimeoutError" 1)).successful_requests = 0
      ∧ ((APIStressTest.init "u" "GET" none [] 4 2 1).run
          (fun _ => ReqResult.failed "TimeoutError" 1)).results = []
      ∧ (show_results ((APIStressTest.init "u" "GET" none [] 4 2 1).run
            (fun _ => ReqResult.failed "TimeoutError" 1))).2
          = ShowResult.noData) :=
  ⟨⟨by decide, by decide⟩,
    c3_amended_all_fail_reports_no_data "u" "GET" none [] 4 2 1
      (by decide) (by decide) _ (by decide) (fun _ => rfl)⟩

/-- C9: `run` partitions the request ids 1..N into consecutive batches
of size C — their concatenation in order is exactly `[1..N]`, every
batch is non-empty with at most C ids, and all but possibly the last
have exactly C — and executes them strictly in sequence: the run is the
left fold of `run_batch` over the batch list, so batch k+1 is processed
only on the state in which every execution of batch k has completed and
recorded its outcome. -/
theorem c9_consecutive_batches_in_sequence (st : APIStressTest)
    (net : Nat → ReqResult) (hN : 1 ≤ st.num_requests)
    (hC : 1 ≤ st.concurrency) :
    (chunksOf st.concurrency (List.range' 1 st.num_requests)).flatten
        = List.range' 1 st.num_requests
    ∧ (∀ b ∈ chunksOf st.concurrency (List.range' 1 st.num_requests),
        b ≠ [] ∧ b.length ≤ st.concurrency)
    ∧ (∀ b ∈ (chunksOf st.concurrency (List.range' 1 st.num_requests)).dropLast,
        b.length = st.concurrency)
    ∧ st.run net = (chunksOf st.concurrency
        (List.range' 1 st.num_requests)).foldl (run_batch net) st :=
  ⟨chunksOf_flatten _ (by omega) _, chunksOf_mem _ _,
    chunksOf_dropLast _ (by omega) _, rfl⟩

theorem c9_consecutive_batches_in_sequence_witness :
    (1 ≤ (APIStressTest.init "u" "GET" none [] 5 2 30).num_requests
      ∧ 1 ≤ (APIStressTest.init "u" "GET" none [] 5 2 30).concurrency)
    ∧ ((chunksOf (APIStressTest.init "u" "GET" none [] 5 2 30).concurrency
          (List.range' 1 (APIStressTest.init "u" "GET" none [] 5 2 30).num_requests)).flatten
        = List.range' 1 (APIStressTest.init "u" "GET" none [] 5 2 30).num_requests
      ∧ (∀ b ∈ chunksOf (APIStressTest.init "u" "GET" none [] 5 2 30).concurrency
            (List.range' 1 (APIStressTest.init "u" "GET" none [] 5 2 30).num_requests),
          b ≠ [] ∧ b.length ≤ (APIStressTest.init "u" "GET" none [] 5 2 30).concurrency)
      ∧ (∀ b ∈ (chunksOf (APIStressTest.init "u" "GET" none [] 5 2 30).concurrency
            (List.range' 1 (APIStressTest.init "u" "GET" none [] 5 2 30).num_requests)).dropLast,
          b.length = (APIStressTest.init "u" "GET" none [] 5 2 30).concurrency)
      ∧ (APIStressTest.init "u" "GET" none [] 5 2 30).run
            (fun _ => ReqResult.completed 200 1)
          = (chunksOf (APIStressTest.init "u" "GET" none [] 5 2 30).concurrency
              (List.range' 1 (APIStressTest.init "u" "GET" none [] 5 2 30).num_requests)).foldl
              (run_batch (fun _ => ReqResult.completed 200 1))
              (APIStressTest.init "u" "GET" none [] 5 2 30)) :=
  ⟨⟨by decide, by decide⟩,
    c9_consecutive_batches_in_sequence (APIStressTest.init "u" "GET" none [] 5 2 30)
      (fun _ => ReqResult.completed 200 1) (by decide) (by decide)⟩
